import Mathlib

/-!
Shallow embedding of the token-lifecycle and session-security core of the
EagerDevelopers authentication backend (`src/auth/auth.service.ts`,
`src/auth/auth.controller.ts`, `src/auth/token-cleanup.service.ts`).

Conventions of the embedding:

* Timestamps are naturals counting milliseconds since the epoch
  (JavaScript `Date.getTime()` / `Date.now()`).
* Database ids (`cuid()` strings in the source) are naturals drawn from the
  freshness counter `Db.nextTokenId`; the cryptographically random session
  secret produced by `generateSecureToken` (`crypto.randomBytes`) is keyed
  by the same counter, modelling its uniqueness.
* The signing collaborator (`JwtService`) is modelled by the `Jwt`
  inductive: `sign` is the corresponding constructor, and `verify` succeeds
  exactly on constructor-built (signed) values and throws on `malformed`
  input.  The source relies on the session row, not the wrapper, for
  expiry/revocation authority.
* `bcrypt` is modelled as an injective tagging of the plaintext.
* Prisma calls are explicit functions on the `Db` record; `update` on a
  missing row rejects (modelled by an `Option`/error branch where the
  source catches it), `updateMany`/`deleteMany` never reject and simply
  touch every matching row.
-/

/-- An HTTP-mapped failure: `UnauthorizedException` carries status 401,
`NotFoundException` 404, `BadRequestException` 400; `message` is the
exception message string the framework serialises into the response body. -/
structure AuthError where
  status : Nat
  message : String
deriving DecidableEq, Repr

instance {ε α : Type} [DecidableEq ε] [DecidableEq α] : DecidableEq (Except ε α) := fun x y =>
  match x, y with
  | .ok a, .ok b =>
    if h : a = b then .isTrue (congrArg Except.ok h)
    else .isFalse (fun hc => h (Except.ok.inj hc))
  | .error a, .error b =>
    if h : a = b then .isTrue (congrArg Except.error h)
    else .isFalse (fun hc => h (Except.error.inj hc))
  | .ok _, .error _ => .isFalse (fun hc => Except.noConfusion hc)
  | .error _, .ok _ => .isFalse (fun hc => Except.noConfusion hc)

/-- `User` row (Prisma `model User`), restricted to the fields the auth core
reads or writes. -/
structure User where
  id : Nat
  email : String
  username : String
  password : String
  isAdmin : Bool := false
  failedLoginAttempts : Nat := 0
  lockedUntil : Option Nat := none
  lastLoginAt : Option Nat := none
  lastActiveAt : Option Nat := none
deriving DecidableEq, Repr

/-- `RefreshToken` row (Prisma `model RefreshToken`): the persisted session
record.  `createdAt` and `lastUsedAt` default to the insertion time
(`@default(now())`), `isRevoked` to `false`. -/
structure RefreshTokenRow where
  id : Nat
  token : String
  userId : Nat
  deviceInfo : Option String := none
  ipAddress : Option String := none
  expiresAt : Nat
  createdAt : Nat
  lastUsedAt : Nat
  isRevoked : Bool := false
  revokedAt : Option Nat := none
  revokedReason : Option String := none
deriving DecidableEq, Repr

/-- The shared durable store: `User` and `RefreshToken` tables plus the
freshness counter backing id generation. -/
structure Db where
  users : List User
  refreshTokens : List RefreshTokenRow
  nextTokenId : Nat
deriving DecidableEq, Repr

/-- Request metadata forwarded by the controller (`interface DeviceInfo`). -/
structure DeviceInfo where
  userAgent : Option String := none
  ipAddress : Option String := none
deriving DecidableEq, Repr

/-- Payload of a signed access token (`interface AccessTokenPayload`); the
`type: 'access'` discriminant is carried by the `Jwt.access` constructor. -/
structure AccessTokenPayload where
  sub : Nat
  email : String
  isAdmin : Bool
  iat : Nat
  exp : Nat
deriving DecidableEq, Repr

/-- Payload of a signed refresh-token wrapper (`interface
RefreshTokenPayload`); the `type: 'refresh'` discriminant is carried by the
`Jwt.refresh` constructor. -/
structure RefreshTokenPayload where
  sub : Nat
  tokenId : Nat
  iat : Nat
  exp : Nat
deriving DecidableEq, Repr

/-- A client-side token string.  `access`/`refresh` are values produced by
`jwtService.sign` (so `verify` accepts them and yields the payload);
`malformed` stands for any string on which `jwtService.verify` throws. -/
inductive Jwt where
  | access (payload : AccessTokenPayload)
  | refresh (payload : RefreshTokenPayload)
  | malformed (raw : String)
deriving DecidableEq, Repr

/-- `interface TokenPair`: the value a successful login/refresh returns. -/
structure TokenPair where
  access_token : Jwt
  refresh_token : Jwt
  expires_in : Nat
  token_type : String
deriving DecidableEq, Repr

/-- Token expiration constants of `AuthService`, in seconds. -/
def ACCESS_TOKEN_EXPIRES_IN : Nat := 30 * 60

/-- 24 hours, used when `rememberMe = false`. -/
def REFRESH_TOKEN_EXPIRES_SHORT : Nat := 24 * 60 * 60

/-- 30 days, used when `rememberMe = true`. -/
def REFRESH_TOKEN_EXPIRES_LONG : Nat := 30 * 24 * 60 * 60

/-- Stand-in for the bcrypt collaborator: hashing tags the plaintext
injectively. -/
def bcryptHash (plain : String) : String := "bcrypt-hash:" ++ plain

/-- `bcrypt.compare(plain, hash)`. -/
def bcryptCompare (plain hash : String) : Bool := hash == bcryptHash plain

/-- `prisma.user.findUnique({ where: { email } })`. -/
def findUserByEmail (db : Db) (email : String) : Option User :=
  db.users.find? (fun u => u.email == email)

/-- `prisma.user.findUnique({ where: { id } })`. -/
def findUserById (db : Db) (id : Nat) : Option User :=
  db.users.find? (fun u => u.id == id)

/-- `prisma.user.update({ where: { id }, data })`: rewrite the row with the
given primary key by `f`. -/
def updateUserById (db : Db) (id : Nat) (f : User → User) : Db :=
  { db with users := db.users.map (fun u => if u.id == id then f u else u) }

/-- `prisma.refreshToken.findUnique({ where: { id } })`. -/
def findTokenById (db : Db) (id : Nat) : Option RefreshTokenRow :=
  db.refreshTokens.find? (fun r => r.id == id)

/-- `prisma.refreshToken.update({ where: { id }, data })`: rewrite the row
with the given primary key by `f`. -/
def updateTokenById (db : Db) (id : Nat) (f : RefreshTokenRow → RefreshTokenRow) : Db :=
  { db with refreshTokens := db.refreshTokens.map (fun r => if r.id == id then f r else r) }

/-- `prisma.refreshToken.delete({ where: { id } })`. -/
def deleteTokenById (db : Db) (id : Nat) : Db :=
  { db with refreshTokens := db.refreshTokens.filter (fun r => !(r.id == id)) }

/-- JavaScript `String.prototype.includes`, used by the user-agent sniffing
of `formatDeviceInfo` (the probe strings are all non-empty). -/
def jsIncludes (s sub : String) : Bool := decide (1 < (s.splitOn sub).length)

/-- `AuthService.formatDeviceInfo`: best-effort browser/OS label. -/
def formatDeviceInfo (deviceInfo : Option DeviceInfo) : String :=
  match deviceInfo with
  | none => "Unknown Device"
  | some d =>
    match d.userAgent with
    | none => "Unknown Device"
    | some ua =>
      let browser :=
        if jsIncludes ua "Chrome" then "Chrome"
        else if jsIncludes ua "Firefox" then "Firefox"
        else if jsIncludes ua "Safari" then "Safari"
        else if jsIncludes ua "Edge" then "Edge"
        else "Unknown Browser"
      let os :=
        if jsIncludes ua "Windows" then "Windows"
        else if jsIncludes ua "Mac" then "macOS"
        else if jsIncludes ua "Linux" then "Linux"
        else if jsIncludes ua "iPhone" then "iOS"
        else if jsIncludes ua "Android" then "Android"
        else "Unknown OS"
      browser ++ " on " ++ os

/-- `AuthService.generateSecureToken` (`crypto.randomBytes(64).toString`):
the collaborator's only relevant property is that each draw is fresh, which
the id counter supplies. -/
def generateSecureToken (nextId : Nat) : String := "secure-token-" ++ toString nextId

/-- The user object `validateUser` returns on success: the fetched row with
`password`, `failedLoginAttempts` and `lockedUntil` destructured away. -/
structure PublicUser where
  id : Nat
  email : String
  username : String
  isAdmin : Bool
  lastLoginAt : Option Nat
  lastActiveAt : Option Nat
deriving DecidableEq, Repr

/-- Projection performed by `const { password, failedLoginAttempts,
lockedUntil, ...result } = user`. -/
def publicUser (u : User) : PublicUser :=
  { id := u.id, email := u.email, username := u.username, isAdmin := u.isAdmin,
    lastLoginAt := u.lastLoginAt, lastActiveAt := u.lastActiveAt }

/-- Outcome of `AuthService.validateUser`: `ok` returns the sanitized user,
`nullUser` is the `return null` path (mapped to 401 "Invalid credentials" by
the controller), `lockedUntilError` the pre-password lockout throw (it
reports the stored unlock timestamp), `lockedNowError` the throw on the
attempt that trips the threshold. -/
inductive ValidateResult where
  | ok (user : PublicUser)
  | nullUser
  | lockedUntilError (lockedUntil : Nat)
  | lockedNowError
deriving DecidableEq, Repr

/-- `user.lockedUntil && user.lockedUntil > new Date()`. -/
def lockActive (lockedUntil : Option Nat) (now : Nat) : Bool :=
  match lockedUntil with
  | some l => decide (now < l)
  | none => false

/-- Per-user logic of `AuthService.validateUser` on the fetched row: yields
the `(failedLoginAttempts, lockedUntil)` pair written back to the row (or
`none` when the code throws before any write) together with the result. -/
def validateUserStep (u : User) (pw : String) (now : Nat) :
    Option (Nat × Option Nat) × ValidateResult :=
  if lockActive u.lockedUntil now then
    (none, .lockedUntilError (u.lockedUntil.getD 0))
  else if bcryptCompare pw u.password then
    (some (0, none), .ok (publicUser u))
  else
    let newFailedAttempts := u.failedLoginAttempts + 1
    let shouldLock : Bool := decide (10 ≤ newFailedAttempts)
    let lockUntil : Option Nat :=
      if shouldLock then some (now + 24 * 60 * 60 * 1000) else u.lockedUntil
    (some (newFailedAttempts, lockUntil),
      if shouldLock then .lockedNowError else .nullUser)

/-- `AuthService.validateUser`: look up the account by email, enforce the
lockout window before the password check, and persist the updated
counter/lockout state. -/
def validateUser (db : Db) (email pw : String) (now : Nat) : Db × ValidateResult :=
  match findUserByEmail db email with
  | none => (db, .nullUser)
  | some u =>
    match validateUserStep u pw now with
    | (none, r) => (db, r)
    | (some (fa, lu), r) =>
      (updateUserById db u.id (fun v => { v with failedLoginAttempts := fa, lockedUntil := lu }), r)

/-- The `RefreshToken` row inserted by `generateTokenPair`'s
`prisma.refreshToken.create`: expiry 24 h, or 30 days under `rememberMe`;
`createdAt`/`lastUsedAt` take their `@default(now())` values. -/
def newSessionRow (db : Db) (user : User) (rememberMe : Bool)
    (deviceInfo : Option DeviceInfo) (now : Nat) : RefreshTokenRow :=
  let refreshTokenExpiresIn :=
    if rememberMe then REFRESH_TOKEN_EXPIRES_LONG else REFRESH_TOKEN_EXPIRES_SHORT
  { id := db.nextTokenId,
    token := generateSecureToken db.nextTokenId,
    userId := user.id,
    expiresAt := now + refreshTokenExpiresIn * 1000,
    createdAt := now,
    lastUsedAt := now,
    isRevoked := false,
    revokedAt := none,
    revokedReason := none,
    deviceInfo := some (formatDeviceInfo deviceInfo),
    ipAddress := deviceInfo.bind (fun d => d.ipAddress) }

/-- `AuthService.generateTokenPair`: mint the signed access token, insert
the successor `RefreshToken` row, and sign the refresh wrapper carrying the
new row's id. -/
def generateTokenPair (db : Db) (user : User) (rememberMe : Bool)
    (deviceInfo : Option DeviceInfo) (now : Nat) : TokenPair × Db :=
  let accessTokenExpiresIn := ACCESS_TOKEN_EXPIRES_IN
  let refreshTokenExpiresIn :=
    if rememberMe then REFRESH_TOKEN_EXPIRES_LONG else REFRESH_TOKEN_EXPIRES_SHORT
  let accessTokenPayload : AccessTokenPayload :=
    { sub := user.id, email := user.email, isAdmin := user.isAdmin,
      iat := now / 1000, exp := now / 1000 + accessTokenExpiresIn }
  let refreshTokenRecord : RefreshTokenRow :=
    newSessionRow db user rememberMe deviceInfo now
  let refreshTokenPayload : RefreshTokenPayload :=
    { sub := user.id, tokenId := refreshTokenRecord.id,
      iat := now / 1000, exp := now / 1000 + refreshTokenExpiresIn }
  ({ access_token := .access accessTokenPayload,
     refresh_token := .refresh refreshTokenPayload,
     expires_in := accessTokenExpiresIn,
     token_type := "Bearer" },
   { db with refreshTokens := refreshTokenRecord :: db.refreshTokens,
             nextTokenId := db.nextTokenId + 1 })

/-- `AuthService.login`: stamp `lastLoginAt`/`lastActiveAt`, then issue the
pair.  (The `user` argument was fetched earlier by `validateUser`; the
update throws if the row has vanished, in which case no pair is issued.) -/
def login (db : Db) (userId : Nat) (rememberMe : Bool)
    (deviceInfo : Option DeviceInfo) (now : Nat) : Db × Except AuthError TokenPair :=
  match findUserById db userId with
  | none => (db, .error { status := 500, message := "Record not found" })
  | some user =>
    let db1 := updateUserById db userId
      (fun v => { v with lastLoginAt := some now, lastActiveAt := some now })
    let (pair, db2) := generateTokenPair db1 user rememberMe deviceInfo now
    (db2, .ok pair)

/-- Validation phase of `AuthService.refreshTokens`: the single
`findUnique({ where: { id }, include: { user: true } })` read plus the
revoked/expired checks that precede any rotation write.  On the expired
branch the row is deleted as a housekeeping side effect, hence the store is
returned too. -/
def refreshValidate (db : Db) (payload : RefreshTokenPayload) (now : Nat) :
    Db × Except AuthError (RefreshTokenRow × Option User) :=
  match findTokenById db payload.tokenId with
  | none => (db, .error { status := 401, message := "Refresh token not found" })
  | some tokenRecord =>
    if tokenRecord.isRevoked then
      (db, .error { status := 401, message := "Refresh token has been revoked" })
    else if tokenRecord.expiresAt < now then
      (deleteTokenById db tokenRecord.id,
       .error { status := 401, message := "Refresh token has expired" })
    else
      (db, .ok (tokenRecord, findUserById db tokenRecord.userId))

/-- The write sequence of a successful rotation, acting on the row/user ids
read earlier: stamp `lastUsedAt` and `lastActiveAt`, then flip the row to
`isRevoked = true, revokedReason = 'token_rotation'`.  In the source these
are three separate awaited Prisma calls, not a transaction. -/
def rotationWrites (db : Db) (tokenRecord : RefreshTokenRow) (now : Nat) : Db :=
  let db1 := updateTokenById db tokenRecord.id (fun r => { r with lastUsedAt := now })
  let db2 := updateUserById db1 tokenRecord.userId (fun u => { u with lastActiveAt := some now })
  updateTokenById db2 tokenRecord.id
    (fun r => { r with isRevoked := true, revokedAt := some now,
                       revokedReason := some "token_rotation" })

/-- Commit phase of a successful rotation: perform the rotation writes and
mint the successor pair.  The remember-me class of the successor is
re-derived from the retired row's original lifetime (more than 2 days means
remember me).  `tokenRecord`/`user` are the values fetched by the earlier
read, not re-read from the current store. -/
def refreshRotate (db : Db) (tokenRecord : RefreshTokenRow) (user : User)
    (deviceInfo : Option DeviceInfo) (now : Nat) : TokenPair × Db :=
  let db1 := rotationWrites db tokenRecord now
  let originalDuration := tokenRecord.expiresAt - tokenRecord.createdAt
  let isRememberMe : Bool := decide (2 * 24 * 60 * 60 * 1000 < originalDuration)
  generateTokenPair db1 user isRememberMe deviceInfo now

/-- `AuthService.refreshTokens`: verify the wrapper, require the `refresh`
discriminant, validate the session row, then rotate.  The surrounding
`try/catch` rethrows `UnauthorizedException`s and maps anything else
(malformed wrapper, and the `TypeError` of reading a missing joined user)
to `UnauthorizedException('Invalid refresh token')`. -/
def refreshTokens (db : Db) (refreshToken : Jwt) (deviceInfo : Option DeviceInfo)
    (now : Nat) : Db × Except AuthError TokenPair :=
  match refreshToken with
  | .malformed _ => (db, .error { status := 401, message := "Invalid refresh token" })
  | .access _ => (db, .error { status := 401, message := "Invalid token type" })
  | .refresh payload =>
    match refreshValidate db payload now with
    | (db1, .error e) => (db1, .error e)
    | (db1, .ok (tokenRecord, none)) =>
      (rotationWrites db1 tokenRecord now,
       .error { status := 401, message := "Invalid refresh token" })
    | (db1, .ok (tokenRecord, some user)) =>
      let (pair, db2) := refreshRotate db1 tokenRecord user deviceInfo now
      (db2, .ok pair)

/-- The field write performed by every revocation site, parameterised by the
`revokedReason` string it stores. -/
def revokeWrite (reason : String) (now : Nat) (r : RefreshTokenRow) : RefreshTokenRow :=
  { r with isRevoked := true, revokedAt := some now, revokedReason := some reason }

/-- `AuthService.logout`: on `allDevices`, an `updateMany` revoking every
non-revoked row of `payload.sub`; otherwise an `update` of the row
`payload.tokenId`.  The `catch` swallows every failure (unverifiable
wrapper, access token without a `tokenId`, missing row), so the call always
resolves; the returned flag records that the caller saw success. -/
def logout (db : Db) (refreshToken : Jwt) (allDevices : Bool) (now : Nat) : Db × Bool :=
  match refreshToken with
  | .malformed _ => (db, true)
  | .access payload =>
    if allDevices then
      ({ db with refreshTokens := db.refreshTokens.map (fun r =>
          if r.userId == payload.sub && !r.isRevoked then
            revokeWrite "logout_all_devices" now r else r) }, true)
    else
      (db, true)
  | .refresh payload =>
    if allDevices then
      ({ db with refreshTokens := db.refreshTokens.map (fun r =>
          if r.userId == payload.sub && !r.isRevoked then
            revokeWrite "logout_all_devices" now r else r) }, true)
    else
      match findTokenById db payload.tokenId with
      | none => (db, true)
      | some _ => (updateTokenById db payload.tokenId (revokeWrite "logout" now), true)

/-- `AuthController.logout`: resolve the token from header/cookie (absent
token returns success immediately), call the service, and map every outcome
— including the catch branch — to a success message. -/
def controllerLogout (db : Db) (refreshToken : Option Jwt) (allDevices : Bool)
    (now : Nat) : Db × Except AuthError String :=
  match refreshToken with
  | none => (db, .ok "Logout successful")
  | some tok =>
    let (db1, _) := logout db tok allDevices now
    (db1, .ok (if allDevices then "Successfully logged out from all devices"
               else "Successfully logged out"))

/-- `AuthService.revokeSession`: `updateMany` over
`{ id, userId, isRevoked: false }`.  An `updateMany` resolves with a match
count and never rejects, so a foreign or missing session id simply matches
zero rows. -/
def revokeSession (db : Db) (userId tokenId : Nat) (now : Nat) : Db :=
  { db with refreshTokens := db.refreshTokens.map (fun r =>
      if r.id == tokenId && r.userId == userId && !r.isRevoked then
        revokeWrite "manual_revocation" now r else r) }

/-- `AuthController.revokeSession` (`DELETE sessions/:tokenId`): the
`catch → NotFoundException` branch is unreachable because the service's
`updateMany` never rejects, so the endpoint always answers with the success
message. -/
def controllerRevokeSession (db : Db) (userId tokenId : Nat) (now : Nat) :
    Db × Except AuthError String :=
  (revokeSession db userId tokenId now, .ok "Session revoked successfully")

/-- The `deleteMany` predicate of `AuthService.cleanupExpiredTokens`:
`expiresAt < now`, or revoked with `revokedAt` older than the 7-day
retention window.  (For `now` within 7 days of the epoch the truncated
subtraction yields 0 and the comparison is false, exactly as the negative
JavaScript date makes it false.) -/
def shouldCleanup (now : Nat) (r : RefreshTokenRow) : Bool :=
  decide (r.expiresAt < now) ||
    (r.isRevoked &&
      match r.revokedAt with
      | some t => decide (t < now - 7 * 24 * 60 * 60 * 1000)
      | none => false)

/-- `AuthService.cleanupExpiredTokens` (invoked by `TokenCleanupService`'s
daily and hourly cron sweeps): delete the matching rows, report the count. -/
def cleanupExpiredTokens (db : Db) (now : Nat) : Db × Nat :=
  ({ db with refreshTokens := db.refreshTokens.filter (fun r => !shouldCleanup now r) },
   db.refreshTokens.countP (shouldCleanup now))

/-- `AuthService.getUserSessions`: the non-revoked, unexpired rows of the
user (ordering by `lastUsedAt` is presentation only and not modelled). -/
def getUserSessions (db : Db) (userId : Nat) (now : Nat) : List RefreshTokenRow :=
  db.refreshTokens.filter (fun r => r.userId == userId && !r.isRevoked && decide (now < r.expiresAt))

/-- One request against the core, as dispatched by the controller. -/
inductive AuthOp where
  | validateOp (email pw : String) (now : Nat)
  | loginOp (userId : Nat) (rememberMe : Bool) (dev : Option DeviceInfo) (now : Nat)
  | refreshOp (tok : Jwt) (dev : Option DeviceInfo) (now : Nat)
  | logoutOp (tok : Jwt) (allDevices : Bool) (now : Nat)
  | revokeSessionOp (userId tokenId : Nat) (now : Nat)
  | cleanupOp (now : Nat)
deriving Repr

/-- Store effect of one request (result projected away). -/
def applyAuthOp (db : Db) : AuthOp → Db
  | .validateOp email pw now => (validateUser db email pw now).1
  | .loginOp userId rememberMe dev now => (login db userId rememberMe dev now).1
  | .refreshOp tok dev now => (refreshTokens db tok dev now).1
  | .logoutOp tok allDevices now => (logout db tok allDevices now).1
  | .revokeSessionOp userId tokenId now => revokeSession db userId tokenId now
  | .cleanupOp now => cleanupExpiredTokens db now |>.1

/-- Store wellformedness maintained by id generation: every session row's
primary key was drawn below the freshness counter, and primary keys are
pairwise distinct. -/
def WFdb (db : Db) : Prop :=
  (∀ r ∈ db.refreshTokens, r.id < db.nextTokenId) ∧
    (db.refreshTokens.map (fun r => r.id)).Nodup

instance (db : Db) : Decidable (WFdb db) := by
  unfold WFdb; infer_instance

/-- Two concurrent `refreshTokens` calls on the same wrapper, under the
interleaving in which both handlers execute the validation read against the
same store snapshot before either handler performs its writes, and the two
write phases then run one after the other.  The source performs the
revoking `update` and the successor `create` as separate awaited Prisma
calls with no `$transaction`, so this schedule is admitted: each primitive
read/write here is exactly one of the source's Prisma calls, in the
source's order.  In every other case (some validation fails) the calls are
equivalent to a sequential execution, which the fallback branch models. -/
def racingRefresh (db : Db) (payload : RefreshTokenPayload)
    (devA devB : Option DeviceInfo) (now : Nat) :
    Except AuthError TokenPair × Except AuthError TokenPair × Db :=
  match (refreshValidate db payload now).2 with
  | .ok (tokenRecord, some user) =>
    let (pairA, dbA) := refreshRotate db tokenRecord user devA now
    let (pairB, dbAB) := refreshRotate dbA tokenRecord user devB now
    (.ok pairA, .ok pairB, dbAB)
  | _ =>
    let (db1, resA) := refreshTokens db (.refresh payload) devA now
    let (db2, resB) := refreshTokens db1 (.refresh payload) devB now
    (resA, resB, db2)

/-- The row keyed `tid` exists and is revoked. -/
def tokenRevokedIn (db : Db) (tid : Nat) : Bool :=
  match findTokenById db tid with
  | some r => r.isRevoked
  | none => false

/-- Store effect of one `refresh` request (wrapper, device metadata, wall
clock). -/
def applyRefreshCall (db : Db) (c : Jwt × Option DeviceInfo × Nat) : Db :=
  (refreshTokens db c.1 c.2.1 c.2.2).1

/-- Store after a sequence of login attempts with the given password, at
the given wall-clock instants. -/
def runFailedLogins (db : Db) (email pw : String) (times : List Nat) : Db :=
  times.foldl (fun d t => (validateUser d email pw t).1) db

/-- The per-call outcomes of that same sequence of login attempts. -/
def failedLoginResults (db : Db) (email pw : String) (times : List Nat) : List ValidateResult :=
  match times with
  | [] => []
  | t :: ts =>
    (validateUser db email pw t).2 :: failedLoginResults (validateUser db email pw t).1 email pw ts

/-- Sample account (registration-fresh). -/
def alice : User :=
  { id := 1, email := "alice@example.com", username := "alice",
    password := bcryptHash "correct horse" }

/-- A second sample account. -/
def bob : User :=
  { id := 2, email := "bob@example.com", username := "bob",
    password := bcryptHash "battery staple" }

/-- A live 24-hour session row for `alice`. -/
def shortRow : RefreshTokenRow :=
  { id := 0, token := "secure-token-0", userId := 1,
    expiresAt := 86400000, createdAt := 0, lastUsedAt := 0 }

/-- A live 30-day (remember-me) session row for `alice`. -/
def longRow : RefreshTokenRow :=
  { id := 0, token := "secure-token-0", userId := 1,
    expiresAt := 2592000000, createdAt := 0, lastUsedAt := 0 }

/-- An already-revoked session row for `alice`. -/
def revokedRow : RefreshTokenRow :=
  { id := 0, token := "secure-token-0", userId := 1,
    expiresAt := 86400000, createdAt := 0, lastUsedAt := 0,
    isRevoked := true, revokedAt := some 500, revokedReason := some "logout" }

/-- A live session row owned by `bob`. -/
def bobRow : RefreshTokenRow :=
  { id := 5, token := "secure-token-5", userId := 2,
    expiresAt := 86400000, createdAt := 0, lastUsedAt := 0 }

/-- Store holding `alice` with one live 24-hour session. -/
def shortDb : Db := { users := [alice], refreshTokens := [shortRow], nextTokenId := 1 }

/-- Store holding `alice` with one live 30-day session. -/
def longDb : Db := { users := [alice], refreshTokens := [longRow], nextTokenId := 1 }

/-- Store holding `alice` with one revoked session. -/
def revokedDb : Db := { users := [alice], refreshTokens := [revokedRow], nextTokenId := 1 }

/-- Store holding `alice` and `bob`, with one live session owned by `bob`. -/
def twoUserDb : Db := { users := [alice, bob], refreshTokens := [bobRow], nextTokenId := 6 }

/-- Wrapper payload pointing at session row 0 of `alice`. -/
def samplePayload : RefreshTokenPayload := { sub := 1, tokenId := 0, iat := 0, exp := 86400 }

/-- Wrapper payload pointing at a session row that does not exist. -/
def missingPayload : RefreshTokenPayload := { sub := 1, tokenId := 3, iat := 0, exp := 86400 }

/-- `alice` after a lockout whose window has already expired. -/
def lockedAlice : User :=
  { alice with failedLoginAttempts := 10, lockedUntil := some 1000 }

/-- Store holding the post-lockout `alice`. -/
def lockedDb : Db := { users := [lockedAlice], refreshTokens := [], nextTokenId := 0 }

/-- An expired session row. -/
def expiredRow : RefreshTokenRow :=
  { id := 1, token := "secure-token-1", userId := 1,
    expiresAt := 500, createdAt := 0, lastUsedAt := 0 }

/-- A session row revoked more than 7 days before the sweep below. -/
def staleRevokedRow : RefreshTokenRow :=
  { id := 2, token := "secure-token-2", userId := 1,
    expiresAt := 999999999999, createdAt := 0, lastUsedAt := 0,
    isRevoked := true, revokedAt := some 0, revokedReason := some "logout" }

/-- A session row revoked less than 7 days before the sweep below. -/
def freshRevokedRow : RefreshTokenRow :=
  { id := 3, token := "secure-token-3", userId := 1,
    expiresAt := 999999999999, createdAt := 0, lastUsedAt := 0,
    isRevoked := true, revokedAt := some 900000000, revokedReason := some "logout" }

/-- A live, unexpired session row at the sweep time below. -/
def liveRow : RefreshTokenRow :=
  { id := 4, token := "secure-token-4", userId := 1,
    expiresAt := 999999999999, createdAt := 0, lastUsedAt := 0 }

/-- Store mixing expired, stale-revoked, freshly-revoked and live rows. -/
def cleanupDb : Db :=
  { users := [alice],
    refreshTokens := [expiredRow, staleRevokedRow, freshRevokedRow, liveRow],
    nextTokenId := 10 }

/-- `find?` commutes with a `map` that leaves the search predicate
invariant. -/
theorem find?_map_invariant {α : Type} (l : List α) (g : α → α) (p : α → Bool)
    (hg : ∀ x, p (g x) = p x) :
    (l.map g).find? p = (l.find? p).map g := by
  induction l with
  | nil => rfl
  | cons x xs ih =>
    rw [List.map_cons, List.find?_cons, List.find?_cons, hg x]
    cases hx : p x
    · exact ih
    · rfl

/-- `find?` is unaffected by filtering out elements the predicate rejects. -/
theorem find?_filter_of_imp {α : Type} (l : List α) (p q : α → Bool)
    (h : ∀ x, p x = true → q x = true) :
    (l.filter q).find? p = l.find? p := by
  induction l with
  | nil => rfl
  | cons x xs ih =>
    rw [List.filter_cons]
    cases hq : q x with
    | true =>
      rw [if_pos rfl, List.find?_cons, List.find?_cons]
      cases p x
      · exact ih
      · rfl
    | false =>
      rw [if_neg (by simp)]
      rw [List.find?_cons]
      cases hp : p x with
      | true => rw [h x hp] at hq; cases hq
      | false => exact ih

/-- With pairwise-distinct ids, two members of the table sharing an id are
the same row. -/
theorem mem_id_inj {l : List RefreshTokenRow}
    (hnd : (l.map (fun r => r.id)).Nodup) {a b : RefreshTokenRow}
    (ha : a ∈ l) (hb : b ∈ l) (h : a.id = b.id) : a = b :=
  List.inj_on_of_nodup_map hnd ha hb h

/-- Looking a row up after an id-preserving per-row rewrite returns the
rewritten image of the original lookup. -/
theorem findTokenById_updateTokenById (db : Db) (tid key : Nat)
    (f : RefreshTokenRow → RefreshTokenRow) (hf : ∀ r, (f r).id = r.id) :
    findTokenById (updateTokenById db tid f) key
      = (findTokenById db key).map (fun r => if r.id == tid then f r else r) := by
  unfold findTokenById updateTokenById
  exact find?_map_invariant _ _ _ (fun r => by
    by_cases h : r.id == tid
    · simp [h, hf]
    · simp [h])

/-- User-table updates leave token lookups unchanged. -/
theorem findTokenById_updateUserById (db : Db) (uid : Nat) (f : User → User) (key : Nat) :
    findTokenById (updateUserById db uid f) key = findTokenById db key := rfl

/-- Deleting one row leaves lookups of other keys unchanged. -/
theorem findTokenById_deleteTokenById_ne (db : Db) (tid key : Nat) (h : key ≠ tid) :
    findTokenById (deleteTokenById db tid) key = findTokenById db key := by
  unfold findTokenById deleteTokenById
  refine find?_filter_of_imp _ _ _ (fun r hr => ?_)
  have : r.id = key := by simpa using hr
  simp [this, h]

/-- A found row is a member of the table carrying the looked-up key. -/
theorem findTokenById_mem {db : Db} {key : Nat} {r : RefreshTokenRow}
    (h : findTokenById db key = some r) : r ∈ db.refreshTokens ∧ r.id = key := by
  refine ⟨List.mem_of_find?_eq_some h, ?_⟩
  have := List.find?_some h
  simpa using this

/-- An id-preserving per-row rewrite of the token table preserves store
wellformedness. -/
theorem WFdb_map (db : Db) (g : RefreshTokenRow → RefreshTokenRow)
    (hg : ∀ r, (g r).id = r.id) (h : WFdb db) :
    WFdb { db with refreshTokens := db.refreshTokens.map g } := by
  obtain ⟨hbound, hnd⟩ := h
  constructor
  · intro r hr
    obtain ⟨x, hx, rfl⟩ := List.mem_map.1 hr
    rw [hg]
    exact hbound x hx
  · have : (db.refreshTokens.map g).map (fun r => r.id)
        = db.refreshTokens.map (fun r => r.id) := by
      rw [List.map_map]
      exact List.map_congr_left (fun x _ => hg x)
    simpa [this] using hnd

/-- Removing rows preserves store wellformedness. -/
theorem WFdb_filter (db : Db) (q : RefreshTokenRow → Bool) (h : WFdb db) :
    WFdb { db with refreshTokens := db.refreshTokens.filter q } := by
  obtain ⟨hbound, hnd⟩ := h
  refine ⟨fun r hr => hbound r (List.mem_of_mem_filter hr), ?_⟩
  exact List.Sublist.nodup (List.Sublist.map _ (List.filter_sublist _)) hnd

/-- Appending a row keyed by the freshness counter, and bumping the counter,
preserves store wellformedness. -/
theorem WFdb_cons_fresh (db : Db) (newRow : RefreshTokenRow)
    (hid : newRow.id = db.nextTokenId) (h : WFdb db) :
    WFdb { db with refreshTokens := newRow :: db.refreshTokens,
                   nextTokenId := db.nextTokenId + 1 } := by
  obtain ⟨hbound, hnd⟩ := h
  constructor
  · intro r hr
    rcases List.mem_cons.1 hr with rfl | hr
    · simp [hid]
    · exact Nat.lt_succ_of_lt (hbound r hr)
  · refine List.nodup_cons.2 ⟨?_, hnd⟩
    intro hmem
    obtain ⟨x, hx, hxid⟩ := List.mem_map.1 hmem
    have hb := hbound x hx
    have hxid' : x.id = db.nextTokenId := by rw [← hid]; exact hxid
    omega

/-- Wellformedness ignores the user table. -/
theorem WFdb_updateUserById (db : Db) (uid : Nat) (f : User → User) (h : WFdb db) :
    WFdb (updateUserById db uid f) := h

/-- Inversion of a successful `refreshTokens` call: the row existed, was
neither revoked nor expired, its owner existed, and the call is exactly the
rotation commit on those fetched values. -/
theorem refreshTokens_ok_inversion (db : Db) (p : RefreshTokenPayload)
    (dev : Option DeviceInfo) (now : Nat)
    (h : ((refreshTokens db (.refresh p) dev now).2).isOk = true) :
    ∃ rec user,
      findTokenById db p.tokenId = some rec ∧ rec.isRevoked = false ∧
      ¬ rec.expiresAt < now ∧ findUserById db rec.userId = some user ∧
      refreshTokens db (.refresh p) dev now
        = ((refreshRotate db rec user dev now).2, .ok (refreshRotate db rec user dev now).1) := by
  cases hfind : findTokenById db p.tokenId with
  | none => simp [refreshTokens, refreshValidate, hfind, Except.isOk, Except.toBool] at h
  | some rec =>
    by_cases hrev : rec.isRevoked
    · simp [refreshTokens, refreshValidate, hfind, hrev, Except.isOk, Except.toBool] at h
    · by_cases hexp : rec.expiresAt < now
      · simp [refreshTokens, refreshValidate, hfind, hrev, hexp, Except.isOk, Except.toBool] at h
      · cases huser : findUserById db rec.userId with
        | none =>
          simp [refreshTokens, refreshValidate, hfind, hrev, hexp, huser, Except.isOk, Except.toBool] at h
        | some user =>
          refine ⟨rec, user, rfl, by simpa using hrev, hexp, huser, ?_⟩
          simp [refreshTokens, refreshValidate, hfind, hrev, hexp, huser]

/-- Store component of `generateTokenPair`: insert the successor row, bump
the counter. -/
theorem generateTokenPair_snd (db : Db) (user : User) (rm : Bool)
    (dev : Option DeviceInfo) (now : Nat) :
    (generateTokenPair db user rm dev now).2
      = { db with refreshTokens := newSessionRow db user rm dev now :: db.refreshTokens,
                  nextTokenId := db.nextTokenId + 1 } := rfl

/-- The successor row is keyed by the freshness counter. -/
theorem newSessionRow_id (db : Db) (user : User) (rm : Bool)
    (dev : Option DeviceInfo) (now : Nat) :
    (newSessionRow db user rm dev now).id = db.nextTokenId := rfl

/-- The successor row's lifetime, per the remember-me class. -/
theorem newSessionRow_expiresAt (db : Db) (user : User) (rm : Bool)
    (dev : Option DeviceInfo) (now : Nat) :
    (newSessionRow db user rm dev now).expiresAt
      = now + (if rm then REFRESH_TOKEN_EXPIRES_LONG else REFRESH_TOKEN_EXPIRES_SHORT) * 1000 := by
  cases rm <;> rfl

/-- The refresh wrapper of a freshly issued pair points at the successor
row. -/
theorem generateTokenPair_fst_refresh (db : Db) (user : User) (rm : Bool)
    (dev : Option DeviceInfo) (now : Nat) :
    (generateTokenPair db user rm dev now).1.refresh_token
      = .refresh { sub := user.id, tokenId := db.nextTokenId, iat := now / 1000,
                   exp := now / 1000
                     + (if rm then REFRESH_TOKEN_EXPIRES_LONG else REFRESH_TOKEN_EXPIRES_SHORT) } := by
  cases rm <;> rfl

/-- Effect of the rotation writes on token lookups: the user-table write is
invisible and the row writes rewrite only the rotated row, which ends
revoked with reason `token_rotation`. -/
theorem findTokenById_rotationWrites (db : Db) (rec : RefreshTokenRow) (now key : Nat) :
    findTokenById (rotationWrites db rec now) key
      = (findTokenById db key).map (fun r =>
          if r.id == rec.id then
            { r with lastUsedAt := now, isRevoked := true, revokedAt := some now,
                     revokedReason := some "token_rotation" }
          else r) := by
  unfold rotationWrites
  rw [findTokenById_updateTokenById _ _ _ _ (fun r => by by_cases h : r.id == rec.id <;> simp [h])]
  rw [findTokenById_updateUserById]
  rw [findTokenById_updateTokenById _ _ _ _ (fun r => by by_cases h : r.id == rec.id <;> simp [h])]
  rw [Option.map_map]
  cases hf : findTokenById db key with
  | none => rfl
  | some r =>
    simp only [Option.map_some', Function.comp]
    by_cases h : r.id == rec.id
    · simp [h]
    · simp [h]

/-- Unfolding equation: a present row decides `tokenRevokedIn`. -/
theorem tokenRevokedIn_some {db : Db} {key : Nat} {r : RefreshTokenRow}
    (h : findTokenById db key = some r) : tokenRevokedIn db key = r.isRevoked := by
  unfold tokenRevokedIn
  rw [h]

/-- Unfolding equation: an absent row makes `tokenRevokedIn` false. -/
theorem tokenRevokedIn_none {db : Db} {key : Nat}
    (h : findTokenById db key = none) : tokenRevokedIn db key = false := by
  unfold tokenRevokedIn
  rw [h]

/-- After the rotation writes, the rotated row (looked up by its own id) is
revoked. -/
theorem tokenRevokedIn_rotationWrites_self (db : Db) (rec : RefreshTokenRow) (now : Nat)
    (hfind : findTokenById db rec.id = some rec) :
    tokenRevokedIn (rotationWrites db rec now) rec.id = true := by
  have hfr : findTokenById (rotationWrites db rec now) rec.id
      = some { rec with lastUsedAt := now, isRevoked := true, revokedAt := some now,
                        revokedReason := some "token_rotation" } := by
    rw [findTokenById_rotationWrites, hfind]
    simp
  rw [tokenRevokedIn_some hfr]

/-- The rotation writes never clear a revocation flag. -/
theorem tokenRevokedIn_rotationWrites_mono (db : Db) (rec : RefreshTokenRow) (now key : Nat)
    (h : tokenRevokedIn db key = true) :
    tokenRevokedIn (rotationWrites db rec now) key = true := by
  cases hf : findTokenById db key with
  | none => rw [tokenRevokedIn_none hf] at h; cases h
  | some r =>
    rw [tokenRevokedIn_some hf] at h
    by_cases hid : r.id = rec.id
    · have hfr : findTokenById (rotationWrites db rec now) key
          = some { r with lastUsedAt := now, isRevoked := true, revokedAt := some now,
                          revokedReason := some "token_rotation" } := by
        rw [findTokenById_rotationWrites, hf]
        simp [hid]
      rw [tokenRevokedIn_some hfr]
    · have hfr : findTokenById (rotationWrites db rec now) key = some r := by
        rw [findTokenById_rotationWrites, hf]
        simp [hid]
      rw [tokenRevokedIn_some hfr]
      exact h

/-- Prepending a row with a different id does not affect a lookup. -/
theorem tokenRevokedIn_cons_ne (db : Db) (newRow : RefreshTokenRow) (n' key : Nat)
    (hne : (newRow.id == key) = false) (h : tokenRevokedIn db key = true) :
    tokenRevokedIn { db with refreshTokens := newRow :: db.refreshTokens,
                             nextTokenId := n' } key = true := by
  unfold tokenRevokedIn findTokenById at h ⊢
  simpa [List.find?_cons, hne] using h

/-- A revoked row's id is bounded by the freshness counter. -/
theorem tokenRevokedIn_lt_next (db : Db) (key : Nat) (hwf : WFdb db)
    (h : tokenRevokedIn db key = true) : key < db.nextTokenId := by
  unfold tokenRevokedIn at h
  cases hf : findTokenById db key with
  | none => rw [hf] at h; cases h
  | some r =>
    obtain ⟨hmem, hid⟩ := findTokenById_mem hf
    rw [← hid]
    exact hwf.1 r hmem

/-- An id-preserving single-row rewrite preserves wellformedness. -/
theorem WFdb_updateTokenById (db : Db) (tid : Nat) (f : RefreshTokenRow → RefreshTokenRow)
    (hf : ∀ r, (f r).id = r.id) (h : WFdb db) : WFdb (updateTokenById db tid f) :=
  WFdb_map db _ (fun r => by by_cases hh : r.id == tid <;> simp [hh, hf]) h

/-- The rotation writes preserve wellformedness. -/
theorem WFdb_rotationWrites (db : Db) (rec : RefreshTokenRow) (now : Nat) (h : WFdb db) :
    WFdb (rotationWrites db rec now) := by
  unfold rotationWrites
  exact WFdb_updateTokenById _ _ _ (fun r => rfl)
    (WFdb_updateUserById _ _ _ (WFdb_updateTokenById _ _ _ (fun r => rfl) h))

/-- Issuing a pair preserves wellformedness. -/
theorem WFdb_generateTokenPair (db : Db) (user : User) (rm : Bool)
    (dev : Option DeviceInfo) (now : Nat) (h : WFdb db) :
    WFdb (generateTokenPair db user rm dev now).2 := by
  rw [generateTokenPair_snd]
  exact WFdb_cons_fresh db _ rfl h

/-- A `refresh` request, whatever its token, preserves wellformedness of
the store. -/
theorem WFdb_refreshTokens (db : Db) (tok : Jwt) (dev : Option DeviceInfo) (now : Nat)
    (h : WFdb db) : WFdb (refreshTokens db tok dev now).1 := by
  cases tok with
  | malformed raw => exact h
  | access payload => exact h
  | refresh payload =>
    cases hfind : findTokenById db payload.tokenId with
    | none => simpa [refreshTokens, refreshValidate, hfind] using h
    | some rec =>
      by_cases hrev : rec.isRevoked
      · simpa [refreshTokens, refreshValidate, hfind, hrev] using h
      · by_cases hexp : rec.expiresAt < now
        · simp only [refreshTokens, refreshValidate, hfind, hrev, hexp]
          simp only [Bool.false_eq_true, if_neg, if_pos, reduceIte]
          exact WFdb_filter db _ h
        · cases huser : findUserById db rec.userId with
          | none =>
            simp only [refreshTokens, refreshValidate, hfind, hrev, hexp, huser]
            simp only [Bool.false_eq_true, reduceIte, if_neg hexp]
            exact WFdb_rotationWrites db rec now h
          | some user =>
            simp only [refreshTokens, refreshValidate, hfind, hrev, hexp, huser]
            simp only [Bool.false_eq_true, reduceIte, if_neg hexp]
            exact WFdb_generateTokenPair _ user _ dev now (WFdb_rotationWrites db rec now h)

/-- No `refresh` request, whatever its token, un-revokes an existing
revoked row. -/
theorem tokenRevokedIn_refreshTokens (db : Db) (tok : Jwt) (dev : Option DeviceInfo)
    (now key : Nat) (hwf : WFdb db) (h : tokenRevokedIn db key = true) :
    tokenRevokedIn (refreshTokens db tok dev now).1 key = true := by
  cases tok with
  | malformed raw => exact h
  | access payload => exact h
  | refresh payload =>
    cases hfind : findTokenById db payload.tokenId with
    | none => simpa [refreshTokens, refreshValidate, hfind] using h
    | some rec =>
      by_cases hrev : rec.isRevoked
      · simpa [refreshTokens, refreshValidate, hfind, hrev] using h
      · have hkey : key ≠ rec.id := by
          intro hk
          obtain ⟨hmem, hid⟩ := findTokenById_mem hfind
          rw [hk, hid] at h
          rw [tokenRevokedIn_some hfind] at h
          exact hrev h
        by_cases hexp : rec.expiresAt < now
        · simp only [refreshTokens, refreshValidate, hfind, hrev, hexp]
          simp only [Bool.false_eq_true, reduceIte, if_pos hexp]
          have hdel : findTokenById (deleteTokenById db rec.id) key = findTokenById db key :=
            findTokenById_deleteTokenById_ne db rec.id key hkey
          cases hf : findTokenById db key with
          | none => rw [tokenRevokedIn_none hf] at h; cases h
          | some r =>
            rw [tokenRevokedIn_some hf] at h
            rw [tokenRevokedIn_some (hdel.trans hf)]
            exact h
        · have hlt : key < db.nextTokenId := tokenRevokedIn_lt_next db key hwf h
          have hrot : tokenRevokedIn (rotationWrites db rec now) key = true :=
            tokenRevokedIn_rotationWrites_mono db rec now key h
          cases huser : findUserById db rec.userId with
          | none =>
            simp only [refreshTokens, refreshValidate, hfind, hrev, hexp, huser]
            simp only [Bool.false_eq_true, reduceIte, if_neg hexp]
            exact hrot
          | some user =>
            simp only [refreshTokens, refreshValidate, hfind, hrev, hexp, huser]
            simp only [Bool.false_eq_true, reduceIte, if_neg hexp]
            rw [show (refreshRotate (rotationWrites db rec now |> fun _ => db) rec user dev now).2 = (refreshRotate db rec user dev now).2 from rfl]
            unfold refreshRotate
            rw [generateTokenPair_snd]
            refine tokenRevokedIn_cons_ne _ _ _ key ?_ hrot
            rw [newSessionRow_id]
            have : (rotationWrites db rec now).nextTokenId = db.nextTokenId := rfl
            rw [this]
            simp only [beq_eq_false_iff_ne, ne_eq]
            omega

/-- A successful rotation leaves the presented row revoked in the resulting
store. -/
theorem refreshTokens_ok_revokes (db : Db) (p : RefreshTokenPayload)
    (dev : Option DeviceInfo) (now : Nat) (hwf : WFdb db)
    (h : ((refreshTokens db (.refresh p) dev now).2).isOk = true) :
    tokenRevokedIn (refreshTokens db (.refresh p) dev now).1 p.tokenId = true := by
  obtain ⟨rec, user, hfind, hrev, hexp, huser, heq⟩ :=
    refreshTokens_ok_inversion db p dev now h
  rw [heq]
  obtain ⟨hmem, hid⟩ := findTokenById_mem hfind
  have hlt : p.tokenId < db.nextTokenId := hid ▸ hwf.1 rec hmem
  unfold refreshRotate
  rw [generateTokenPair_snd]
  have hself : tokenRevokedIn (rotationWrites db rec now) p.tokenId = true := by
    rw [← hid] at hfind ⊢
    exact tokenRevokedIn_rotationWrites_self db rec now hfind
  refine tokenRevokedIn_cons_ne _ _ _ p.tokenId ?_ hself
  rw [newSessionRow_id]
  have : (rotationWrites db rec now).nextTokenId = db.nextTokenId := rfl
  rw [this]
  simp only [beq_eq_false_iff_ne, ne_eq]
  omega

/-- Presenting the wrapper of a revoked row always produces the dedicated
revocation rejection and leaves the store untouched. -/
theorem refreshTokens_revoked_error (db : Db) (p : RefreshTokenPayload)
    (dev : Option DeviceInfo) (now : Nat) (h : tokenRevokedIn db p.tokenId = true) :
    refreshTokens db (.refresh p) dev now
      = (db, .error { status := 401, message := "Refresh token has been revoked" }) := by
  cases hf : findTokenById db p.tokenId with
  | none => rw [tokenRevokedIn_none hf] at h; cases h
  | some r =>
    rw [tokenRevokedIn_some hf] at h
    simp [refreshTokens, refreshValidate, hf, h]

/-- Any sequence of `refresh` requests preserves wellformedness and never
un-revokes a revoked row. -/
theorem tokenRevokedIn_foldl_refresh (calls : List (Jwt × Option DeviceInfo × Nat))
    (db : Db) (key : Nat) (hwf : WFdb db) (h : tokenRevokedIn db key = true) :
    WFdb (calls.foldl applyRefreshCall db)
      ∧ tokenRevokedIn (calls.foldl applyRefreshCall db) key = true := by
  induction calls generalizing db with
  | nil => exact ⟨hwf, h⟩
  | cons c cs ih =>
    exact ih (applyRefreshCall db c)
      (WFdb_refreshTokens db c.1 c.2.1 c.2.2 hwf)
      (tokenRevokedIn_refreshTokens db c.1 c.2.1 c.2.2 key hwf h)

/-- Claim C1: for every issued refresh token, at most one `refresh` call on
that token succeeds — after a successful rotation the retired row has
`revoked = true`, and every subsequent `refresh` call presenting the same
token (after any further sequence of refresh calls) fails with the
`TokenRevoked` rejection, the revoked check preceding any reissue. -/
theorem refresh_token_single_use
    (db : Db) (p : RefreshTokenPayload) (dev dev' : Option DeviceInfo) (now now' : Nat)
    (calls : List (Jwt × Option DeviceInfo × Nat))
    (hwf : WFdb db)
    (hok : ((refreshTokens db (.refresh p) dev now).2).isOk = true) :
    tokenRevokedIn
        (calls.foldl applyRefreshCall (refreshTokens db (.refresh p) dev now).1) p.tokenId = true
      ∧ (refreshTokens
          (calls.foldl applyRefreshCall (refreshTokens db (.refresh p) dev now).1)
          (.refresh p) dev' now').2
        = .error { status := 401, message := "Refresh token has been revoked" } := by
  obtain ⟨hwf', hrev⟩ := tokenRevokedIn_foldl_refresh calls _ p.tokenId
    (WFdb_refreshTokens db (.refresh p) dev now hwf)
    (refreshTokens_ok_revokes db p dev now hwf hok)
  refine ⟨hrev, ?_⟩
  rw [refreshTokens_revoked_error _ p dev' now' hrev]

/-- Witness for C1: `alice`'s live session rotates once at t = 1000; a
replay at t = 1500 and a final attempt at t = 2000 both hit the
`TokenRevoked` rejection. -/
theorem refresh_token_single_use_witness :
    WFdb shortDb
      ∧ ((refreshTokens shortDb (.refresh samplePayload) none 1000).2).isOk = true
      ∧ (tokenRevokedIn
            ([((Jwt.refresh samplePayload : Jwt), (none : Option DeviceInfo), 1500)].foldl
              applyRefreshCall
              (refreshTokens shortDb (.refresh samplePayload) none 1000).1)
            samplePayload.tokenId = true
          ∧ (refreshTokens
              ([((Jwt.refresh samplePayload : Jwt), (none : Option DeviceInfo), 1500)].foldl
                applyRefreshCall
                (refreshTokens shortDb (.refresh samplePayload) none 1000).1)
              (.refresh samplePayload) none 2000).2
            = .error { status := 401, message := "Refresh token has been revoked" }) :=
  ⟨by decide, by decide,
    refresh_token_single_use shortDb samplePayload none none 1000 2000
      [((Jwt.refresh samplePayload : Jwt), (none : Option DeviceInfo), 1500)]
      (by decide) (by decide)⟩

/-- Claim C2, evaluated at the failing schedule: the source performs the
revoking `update` and the successor `create` of a rotation as separate
awaited Prisma calls with no `$transaction` or conditional write, so the
read-read-write-write interleaving of two concurrent `refresh` calls on the
same live token is admitted — and under it both calls succeed and the store
ends holding two live successor sessions minted from the single token,
contradicting the claimed exactly-one-winner atomicity. -/
theorem refresh_rotation_race_two_winners :
    ((racingRefresh shortDb samplePayload none none 1000).1).isOk = true
      ∧ ((racingRefresh shortDb samplePayload none none 1000).2.1).isOk = true
      ∧ ((racingRefresh shortDb samplePayload none none 1000).2.2).refreshTokens.countP
          (fun r => !r.isRevoked) = 2 := by
  decide

/-- Claim C4: a successful rotation of a session whose original lifetime
(`expiresAt - createdAt`) exceeds 2 days yields a successor row with a
30-day lifetime, and one of lifetime at most 2 days yields a 24-hour
successor; the successor sits in the same remember-me class as the
original, so the class is preserved through arbitrarily many rotations. -/
theorem rotation_preserves_remember_me_class
    (db : Db) (p : RefreshTokenPayload) (dev : Option DeviceInfo) (now : Nat)
    (rec : RefreshTokenRow)
    (hrec : findTokenById db p.tokenId = some rec)
    (hok : ((refreshTokens db (.refresh p) dev now).2).isOk = true) :
    ∃ pair rp newRec,
      (refreshTokens db (.refresh p) dev now).2 = .ok pair
        ∧ pair.refresh_token = .refresh rp
        ∧ findTokenById (refreshTokens db (.refresh p) dev now).1 rp.tokenId = some newRec
        ∧ newRec.isRevoked = false
        ∧ newRec.createdAt = now
        ∧ newRec.expiresAt - newRec.createdAt
            = (if 2 * 24 * 60 * 60 * 1000 < rec.expiresAt - rec.createdAt
               then 30 * 24 * 60 * 60 * 1000 else 24 * 60 * 60 * 1000)
        ∧ ((2 * 24 * 60 * 60 * 1000 < newRec.expiresAt - newRec.createdAt)
             ↔ (2 * 24 * 60 * 60 * 1000 < rec.expiresAt - rec.createdAt)) := by
  obtain ⟨rec', user, hfind, hrev, hexp, huser, heq⟩ :=
    refreshTokens_ok_inversion db p dev now hok
  have hrr : rec' = rec := by
    rw [hrec] at hfind
    exact (Option.some.inj hfind).symm
  subst hrr
  rw [heq]
  have hunfold : refreshRotate db rec' user dev now
      = generateTokenPair (rotationWrites db rec' now) user
          (decide (2 * 24 * 60 * 60 * 1000 < rec'.expiresAt - rec'.createdAt)) dev now := rfl
  by_cases hrm : 2 * 24 * 60 * 60 * 1000 < rec'.expiresAt - rec'.createdAt
  · have hb : decide (2 * 24 * 60 * 60 * 1000 < rec'.expiresAt - rec'.createdAt) = true :=
      decide_eq_true hrm
    rw [hb] at hunfold
    refine ⟨(refreshRotate db rec' user dev now).1,
      { sub := user.id, tokenId := (rotationWrites db rec' now).nextTokenId,
        iat := now / 1000, exp := now / 1000 + REFRESH_TOKEN_EXPIRES_LONG },
      newSessionRow (rotationWrites db rec' now) user true dev now, rfl, ?_, ?_, rfl, rfl, ?_, ?_⟩
    · rw [hunfold, generateTokenPair_fst_refresh]
      simp
    · show findTokenById (refreshRotate db rec' user dev now).2
        (rotationWrites db rec' now).nextTokenId = _
      rw [hunfold, generateTokenPair_snd]
      unfold findTokenById
      exact List.find?_cons_of_pos _ (by rw [newSessionRow_id]; simp)
    · rw [if_pos hrm, newSessionRow_expiresAt]
      show now + REFRESH_TOKEN_EXPIRES_LONG * 1000 - now = 30 * 24 * 60 * 60 * 1000
      unfold REFRESH_TOKEN_EXPIRES_LONG
      omega
    · rw [newSessionRow_expiresAt]
      show 2 * 24 * 60 * 60 * 1000 < now + REFRESH_TOKEN_EXPIRES_LONG * 1000 - now
        ↔ 2 * 24 * 60 * 60 * 1000 < rec'.expiresAt - rec'.createdAt
      unfold REFRESH_TOKEN_EXPIRES_LONG
      constructor
      · intro _; exact hrm
      · intro _; omega
  · have hb : decide (2 * 24 * 60 * 60 * 1000 < rec'.expiresAt - rec'.createdAt) = false :=
      decide_eq_false hrm
    rw [hb] at hunfold
    refine ⟨(refreshRotate db rec' user dev now).1,
      { sub := user.id, tokenId := (rotationWrites db rec' now).nextTokenId,
        iat := now / 1000, exp := now / 1000 + REFRESH_TOKEN_EXPIRES_SHORT },
      newSessionRow (rotationWrites db rec' now) user false dev now, rfl, ?_, ?_, rfl, rfl, ?_, ?_⟩
    · rw [hunfold, generateTokenPair_fst_refresh]
      simp
    · show findTokenById (refreshRotate db rec' user dev now).2
        (rotationWrites db rec' now).nextTokenId = _
      rw [hunfold, generateTokenPair_snd]
      unfold findTokenById
      exact List.find?_cons_of_pos _ (by rw [newSessionRow_id]; simp)
    · rw [if_neg hrm, newSessionRow_expiresAt]
      show now + REFRESH_TOKEN_EXPIRES_SHORT * 1000 - now = 24 * 60 * 60 * 1000
      unfold REFRESH_TOKEN_EXPIRES_SHORT
      omega
    · rw [newSessionRow_expiresAt]
      show 2 * 24 * 60 * 60 * 1000 < now + REFRESH_TOKEN_EXPIRES_SHORT * 1000 - now
        ↔ 2 * 24 * 60 * 60 * 1000 < rec'.expiresAt - rec'.createdAt
      unfold REFRESH_TOKEN_EXPIRES_SHORT
      constructor
      · intro hcon; omega
      · intro hcon; exact absurd hcon hrm

/-- Witness for C4: rotating `alice`'s 30-day session at t = 1000 yields a
30-day successor. -/
theorem rotation_preserves_remember_me_class_witness :
    ∃ pair rp newRec,
      (refreshTokens longDb (.refresh samplePayload) none 1000).2 = .ok pair
        ∧ pair.refresh_token = .refresh rp
        ∧ findTokenById (refreshTokens longDb (.refresh samplePayload) none 1000).1 rp.tokenId
            = some newRec
        ∧ newRec.isRevoked = false
        ∧ newRec.createdAt = 1000
        ∧ newRec.expiresAt - newRec.createdAt
            = (if 2 * 24 * 60 * 60 * 1000 < longRow.expiresAt - longRow.createdAt
               then 30 * 24 * 60 * 60 * 1000 else 24 * 60 * 60 * 1000)
        ∧ ((2 * 24 * 60 * 60 * 1000 < newRec.expiresAt - newRec.createdAt)
             ↔ (2 * 24 * 60 * 60 * 1000 < longRow.expiresAt - longRow.createdAt)) :=
  rotation_preserves_remember_me_class longDb samplePayload none 1000 longRow
    (by decide) (by decide)

/-- In a duplicate-free table, a member sharing a revoked member's id is
itself revoked. -/
theorem revoked_mono_self {l : List RefreshTokenRow}
    (hnd : (l.map (fun r => r.id)).Nodup) {r r' : RefreshTokenRow}
    (hr : r ∈ l) (hrev : r.isRevoked = true) (hr' : r' ∈ l) (hid : r'.id = r.id) :
    r'.isRevoked = true := by
  have := mem_id_inj hnd hr' hr hid
  rw [this]
  exact hrev

/-- An id-preserving, revocation-monotone per-row rewrite cannot un-revoke
a row. -/
theorem revoked_mono_map {l : List RefreshTokenRow} {g : RefreshTokenRow → RefreshTokenRow}
    (hgid : ∀ x, (g x).id = x.id)
    (hgrev : ∀ x, x.isRevoked = true → (g x).isRevoked = true)
    (hnd : (l.map (fun r => r.id)).Nodup) {r r' : RefreshTokenRow}
    (hr : r ∈ l) (hrev : r.isRevoked = true) (hr' : r' ∈ l.map g) (hid : r'.id = r.id) :
    r'.isRevoked = true := by
  obtain ⟨x, hx, rfl⟩ := List.mem_map.1 hr'
  have hxr : x = r := mem_id_inj hnd hx hr (by rw [← hgid x]; exact hid)
  subst hxr
  exact hgrev x hrev

/-- `validateUser` never touches the token table. -/
theorem validateUser_refreshTokens (db : Db) (email pw : String) (now : Nat) :
    ((validateUser db email pw now).1).refreshTokens = db.refreshTokens := by
  unfold validateUser
  split
  · rfl
  · split
    · rfl
    · rfl

/-- Claim C5: session revocation is monotonic — across every operation of
the core (credential validation, login, refresh rotation, logout,
logout-all-devices, manual session revocation, cleanup), a row that is
revoked and survives the operation is still revoked; no operation ever
resets `revoked` to `false`. -/
theorem session_revocation_monotonic
    (db : Db) (op : AuthOp) (hwf : WFdb db)
    (r r' : RefreshTokenRow) (hr : r ∈ db.refreshTokens) (hrev : r.isRevoked = true)
    (hr' : r' ∈ (applyAuthOp db op).refreshTokens) (hid : r'.id = r.id) :
    r'.isRevoked = true := by
  have hbound : r.id < db.nextTokenId := hwf.1 r hr
  cases op with
  | validateOp email pw now =>
    rw [show (applyAuthOp db (.validateOp email pw now)) = (validateUser db email pw now).1 from rfl,
      validateUser_refreshTokens] at hr'
    exact revoked_mono_self hwf.2 hr hrev hr' hid
  | loginOp userId rememberMe dev now =>
    cases huser : findUserById db userId with
    | none =>
      have hst : applyAuthOp db (.loginOp userId rememberMe dev now) = db := by
        simp [applyAuthOp, login, huser]
      rw [hst] at hr'
      exact revoked_mono_self hwf.2 hr hrev hr' hid
    | some user =>
      have hst : (applyAuthOp db (.loginOp userId rememberMe dev now)).refreshTokens
          = newSessionRow (updateUserById db userId
              (fun v => { v with lastLoginAt := some now, lastActiveAt := some now }))
              user rememberMe dev now :: db.refreshTokens := by
        simp [applyAuthOp, login, huser, generateTokenPair_snd]
        rfl
      rw [hst] at hr'
      rcases List.mem_cons.1 hr' with heq | hmem
      · exfalso
        have : r'.id = db.nextTokenId := by rw [heq, newSessionRow_id]; rfl
        omega
      · exact revoked_mono_self hwf.2 hr hrev hmem hid
  | refreshOp tok dev now =>
    cases tok with
    | malformed raw => exact revoked_mono_self hwf.2 hr hrev hr' hid
    | access payload => exact revoked_mono_self hwf.2 hr hrev hr' hid
    | refresh payload =>
      have happ : applyAuthOp db (.refreshOp (.refresh payload) dev now)
          = (refreshTokens db (.refresh payload) dev now).1 := rfl
      cases hfind : findTokenById db payload.tokenId with
      | none =>
        rw [happ, show (refreshTokens db (.refresh payload) dev now).1 = db by
          simp [refreshTokens, refreshValidate, hfind]] at hr'
        exact revoked_mono_self hwf.2 hr hrev hr' hid
      | some rec =>
        by_cases hrevd : rec.isRevoked
        · rw [happ, show (refreshTokens db (.refresh payload) dev now).1 = db by
            simp [refreshTokens, refreshValidate, hfind, hrevd]] at hr'
          exact revoked_mono_self hwf.2 hr hrev hr' hid
        · by_cases hexp : rec.expiresAt < now
          · rw [happ, show (refreshTokens db (.refresh payload) dev now).1
                = deleteTokenById db rec.id by
              simp only [refreshTokens, refreshValidate, hfind, hrevd, hexp]
              simp only [Bool.false_eq_true, reduceIte, if_pos hexp]] at hr'
            exact revoked_mono_self hwf.2 hr hrev (List.mem_of_mem_filter hr') hid
          · have hrtokens : (rotationWrites db rec now).refreshTokens
                = db.refreshTokens.map (fun x =>
                    (fun y => if y.id == rec.id then
                        { y with isRevoked := true, revokedAt := some now,
                                 revokedReason := some "token_rotation" } else y)
                    ((fun y => if y.id == rec.id then { y with lastUsedAt := now } else y) x)) := by
              show (db.refreshTokens.map _).map _ = _
              rw [List.map_map]
              rfl
            have hmaprev : ∀ hx' : r' ∈ (rotationWrites db rec now).refreshTokens,
                r'.isRevoked = true := by
              intro hx'
              rw [hrtokens] at hx'
              refine revoked_mono_map ?_ ?_ hwf.2 hr hrev hx' hid
              · intro x
                by_cases h1 : x.id == rec.id <;> simp [h1]
              · intro x hx
                by_cases h1 : x.id == rec.id <;> simp [h1, hx]
            cases huser : findUserById db rec.userId with
            | none =>
              rw [happ, show (refreshTokens db (.refresh payload) dev now).1
                  = rotationWrites db rec now by
                simp only [refreshTokens, refreshValidate, hfind, hrevd, hexp, huser]
                simp only [Bool.false_eq_true, reduceIte, if_neg hexp]] at hr'
              exact hmaprev hr'
            | some user =>
              rw [happ, show (refreshTokens db (.refresh payload) dev now).1
                  = (refreshRotate db rec user dev now).2 by
                simp only [refreshTokens, refreshValidate, hfind, hrevd, hexp, huser]
                simp only [Bool.false_eq_true, reduceIte, if_neg hexp]] at hr'
              rw [show (refreshRotate db rec user dev now).2
                  = (generateTokenPair (rotationWrites db rec now) user
                      (decide (2 * 24 * 60 * 60 * 1000 < rec.expiresAt - rec.createdAt))
                      dev now).2 from rfl, generateTokenPair_snd] at hr'
              rcases List.mem_cons.1 hr' with heq | hmem
              · exfalso
                have : r'.id = db.nextTokenId := by rw [heq, newSessionRow_id]; rfl
                omega
              · exact hmaprev hmem
  | logoutOp tok allDevices now =>
    cases tok with
    | malformed raw => exact revoked_mono_self hwf.2 hr hrev hr' hid
    | access payload =>
      cases allDevices with
      | false => exact revoked_mono_self hwf.2 hr hrev hr' hid
      | true =>
        have hst : (applyAuthOp db (.logoutOp (.access payload) true now)).refreshTokens
            = db.refreshTokens.map (fun x =>
                if x.userId == payload.sub && !x.isRevoked then
                  revokeWrite "logout_all_devices" now x else x) := rfl
        rw [hst] at hr'
        refine revoked_mono_map ?_ ?_ hwf.2 hr hrev hr' hid
        · intro x
          by_cases h1 : x.userId == payload.sub && !x.isRevoked <;> simp [h1, revokeWrite]
        · intro x hx
          by_cases h1 : x.userId == payload.sub && !x.isRevoked <;> simp [h1, revokeWrite, hx]
    | refresh payload =>
      cases allDevices with
      | true =>
        have hst : (applyAuthOp db (.logoutOp (.refresh payload) true now)).refreshTokens
            = db.refreshTokens.map (fun x =>
                if x.userId == payload.sub && !x.isRevoked then
                  revokeWrite "logout_all_devices" now x else x) := rfl
        rw [hst] at hr'
        refine revoked_mono_map ?_ ?_ hwf.2 hr hrev hr' hid
        · intro x
          by_cases h1 : x.userId == payload.sub && !x.isRevoked <;> simp [h1, revokeWrite]
        · intro x hx
          by_cases h1 : x.userId == payload.sub && !x.isRevoked <;> simp [h1, revokeWrite, hx]
      | false =>
        cases hfind : findTokenById db payload.tokenId with
        | none =>
          have hst : applyAuthOp db (.logoutOp (.refresh payload) false now) = db := by
            simp [applyAuthOp, logout, hfind]
          rw [hst] at hr'
          exact revoked_mono_self hwf.2 hr hrev hr' hid
        | some rec =>
          have hlog : logout db (.refresh payload) false now
              = (updateTokenById db payload.tokenId (revokeWrite "logout" now), true) := by
            simp [logout, hfind]
          have hst : (applyAuthOp db (.logoutOp (.refresh payload) false now)).refreshTokens
              = db.refreshTokens.map (fun x =>
                  if x.id == payload.tokenId then revokeWrite "logout" now x else x) := by
            rw [show applyAuthOp db (.logoutOp (.refresh payload) false now)
                = (logout db (.refresh payload) false now).1 from rfl, hlog]
            rfl
          rw [hst] at hr'
          refine revoked_mono_map ?_ ?_ hwf.2 hr hrev hr' hid
          · intro x
            by_cases h1 : x.id == payload.tokenId <;> simp [h1, revokeWrite]
          · intro x hx
            by_cases h1 : x.id == payload.tokenId <;> simp [h1, revokeWrite, hx]
  | revokeSessionOp userId tokenId now =>
    have hst : (applyAuthOp db (.revokeSessionOp userId tokenId now)).refreshTokens
        = db.refreshTokens.map (fun x =>
            if x.id == tokenId && x.userId == userId && !x.isRevoked then
              revokeWrite "manual_revocation" now x else x) := rfl
    rw [hst] at hr'
    refine revoked_mono_map ?_ ?_ hwf.2 hr hrev hr' hid
    · intro x
      by_cases h1 : x.id == tokenId && x.userId == userId && !x.isRevoked <;>
        simp [h1, revokeWrite]
    · intro x hx
      by_cases h1 : x.id == tokenId && x.userId == userId && !x.isRevoked <;>
        simp [h1, revokeWrite, hx]
  | cleanupOp now =>
    have hst : (applyAuthOp db (.cleanupOp now)).refreshTokens
        = db.refreshTokens.filter (fun x => !shouldCleanup now x) := rfl
    rw [hst] at hr'
    exact revoked_mono_self hwf.2 hr hrev (List.mem_of_mem_filter hr') hid

/-- Witness for C5: with `alice`'s session already revoked, a plain logout
presenting the same wrapper overwrites the revocation metadata but leaves
the row revoked. -/
theorem session_revocation_monotonic_witness :
    WFdb revokedDb
      ∧ revokedRow ∈ revokedDb.refreshTokens
      ∧ revokedRow.isRevoked = true
      ∧ revokeWrite "logout" 2000 revokedRow
          ∈ (applyAuthOp revokedDb (.logoutOp (.refresh samplePayload) false 2000)).refreshTokens
      ∧ (revokeWrite "logout" 2000 revokedRow).id = revokedRow.id
      ∧ (revokeWrite "logout" 2000 revokedRow).isRevoked = true :=
  ⟨by decide, by decide, by decide, by decide, by decide,
    session_revocation_monotonic revokedDb (.logoutOp (.refresh samplePayload) false 2000)
      (by decide) revokedRow (revokeWrite "logout" 2000 revokedRow)
      (by decide) (by decide) (by decide) (by decide)⟩

/-- An email lookup after an email-preserving rewrite of the found row
returns the rewritten row. -/
theorem findUserByEmail_update (db : Db) (email : String) {u : User}
    (hfind : findUserByEmail db email = some u) (f : User → User)
    (hf : ∀ v, (f v).email = v.email) :
    findUserByEmail (updateUserById db u.id f) email = some (f u) := by
  unfold findUserByEmail updateUserById at *
  rw [find?_map_invariant _ _ _ (fun v => by by_cases h : v.id == u.id <;> simp [h, hf])]
  rw [hfind]
  simp

/-- A wrong-password attempt below the lockout threshold: the counter is
incremented, the lockout field is rewritten unchanged, and the call yields
the `null` result (mapped to `InvalidCredentials` by the controller). -/
theorem validateUser_wrong_below (db : Db) (u : User) (email pw : String) (now : Nat)
    (hfind : findUserByEmail db email = some u)
    (hlock : lockActive u.lockedUntil now = false)
    (hwrong : bcryptCompare pw u.password = false)
    (hlt : u.failedLoginAttempts + 1 < 10) :
    validateUser db email pw now
      = (updateUserById db u.id (fun v =>
          { v with failedLoginAttempts := u.failedLoginAttempts + 1,
                   lockedUntil := u.lockedUntil }),
         .nullUser) := by
  have hsl : decide (10 ≤ u.failedLoginAttempts + 1) = false := by
    simp
    omega
  unfold validateUser validateUserStep
  rw [hfind]
  simp [hlock, hwrong, hsl]
  refine ⟨?_, by omega⟩
  rw [if_neg (by omega : ¬ 9 ≤ u.failedLoginAttempts)]

/-- A wrong-password attempt at counter 9 or above: the account is locked
for exactly 24 hours from the failing instant and the call fails with the
lockout rejection. -/
theorem validateUser_wrong_lock (db : Db) (u : User) (email pw : String) (now : Nat)
    (hfind : findUserByEmail db email = some u)
    (hlock : lockActive u.lockedUntil now = false)
    (hwrong : bcryptCompare pw u.password = false)
    (hge : 9 ≤ u.failedLoginAttempts) :
    validateUser db email pw now
      = (updateUserById db u.id (fun v =>
          { v with failedLoginAttempts := u.failedLoginAttempts + 1,
                   lockedUntil := some (now + 24 * 60 * 60 * 1000) }),
         .lockedNowError) := by
  have hsl : decide (10 ≤ u.failedLoginAttempts + 1) = true := by
    simp
    omega
  unfold validateUser validateUserStep
  rw [hfind]
  simp [hlock, hwrong, hsl]
  refine ⟨?_, by omega⟩
  rw [if_pos (by omega : 9 ≤ u.failedLoginAttempts)]

/-- A run of wrong-password attempts that stays below the threshold: every
attempt yields the `null` (invalid-credentials) outcome, the counter ends
at its start value plus the number of attempts, and the lockout field is
untouched. -/
theorem wrong_attempts_run (email pw : String) (ts : List Nat) :
    ∀ (db : Db) (u : User),
      findUserByEmail db email = some u →
      bcryptCompare pw u.password = false →
      (∀ t ∈ ts, lockActive u.lockedUntil t = false) →
      u.failedLoginAttempts + ts.length ≤ 9 →
      failedLoginResults db email pw ts = List.replicate ts.length .nullUser
        ∧ findUserByEmail (runFailedLogins db email pw ts) email
            = some { u with failedLoginAttempts := u.failedLoginAttempts + ts.length } := by
  induction ts with
  | nil =>
    intro db u hfind hwrong hlock hbound
    exact ⟨rfl, hfind⟩
  | cons t ts ih =>
    intro db u hfind hwrong hlock hbound
    have hlockt : lockActive u.lockedUntil t = false := hlock t (List.mem_cons_self t ts)
    have hlt : u.failedLoginAttempts + 1 < 10 := by
      have := hbound
      simp [List.length_cons] at this
      omega
    have hstep := validateUser_wrong_below db u email pw t hfind hlockt hwrong hlt
    have hfind1 : findUserByEmail (validateUser db email pw t).1 email
        = some { u with failedLoginAttempts := u.failedLoginAttempts + 1,
                        lockedUntil := u.lockedUntil } := by
      rw [hstep]
      exact findUserByEmail_update db email hfind _ (fun v => rfl)
    obtain ⟨hres, hrun⟩ := ih (validateUser db email pw t).1
      { u with failedLoginAttempts := u.failedLoginAttempts + 1, lockedUntil := u.lockedUntil }
      hfind1 hwrong (fun s hs => hlock s (List.mem_cons_of_mem t hs))
      (by simp [List.length_cons] at hbound ⊢; omega)
    refine ⟨?_, ?_⟩
    · show (validateUser db email pw t).2
          :: failedLoginResults (validateUser db email pw t).1 email pw ts = _
      rw [List.length_cons, List.replicate_succ]
      refine congrArg₂ (fun a b => a :: b) ?_ hres
      rw [hstep]
    · show findUserByEmail (runFailedLogins (validateUser db email pw t).1 email pw ts) email = _
      rw [hrun]
      have harith : u.failedLoginAttempts + 1 + ts.length
          = u.failedLoginAttempts + (t :: ts).length := by
        simp [List.length_cons]
        omega
      rw [harith]

/-- Claim C3: for an account whose failed-attempt counter starts at 0 (and
whose lockout field holds no active window at the attempt instants), 9
consecutive wrong-password `validateUser` calls each yield the
invalid-credentials outcome and never lock the account, and the 10th
consecutive wrong-password call fails with the lockout rejection, setting
the lockout expiry to exactly that instant plus 24 hours. -/
theorem account_lockout_after_ten_failures
    (db : Db) (u : User) (email pw : String) (ts : List Nat) (t10 : Nat)
    (hfind : findUserByEmail db email = some u)
    (h0 : u.failedLoginAttempts = 0)
    (hwrong : bcryptCompare pw u.password = false)
    (hlen : ts.length = 9)
    (hlock : ∀ t ∈ ts, lockActive u.lockedUntil t = false)
    (hlock10 : lockActive u.lockedUntil t10 = false) :
    failedLoginResults db email pw ts = List.replicate 9 .nullUser
      ∧ (validateUser (runFailedLogins db email pw ts) email pw t10).2 = .lockedNowError
      ∧ findUserByEmail (validateUser (runFailedLogins db email pw ts) email pw t10).1 email
          = some { u with failedLoginAttempts := 10,
                          lockedUntil := some (t10 + 24 * 60 * 60 * 1000) } := by
  obtain ⟨hres, hrun⟩ := wrong_attempts_run email pw ts db u hfind hwrong hlock
    (by omega)
  have hrun9 : findUserByEmail (runFailedLogins db email pw ts) email
      = some { u with failedLoginAttempts := 9 } := by
    rw [hrun, h0, hlen]
  have hstep := validateUser_wrong_lock (runFailedLogins db email pw ts)
    { u with failedLoginAttempts := 9 } email pw t10 hrun9 hlock10 hwrong (by simp)
  refine ⟨by rw [hres, hlen], ?_, ?_⟩
  · rw [hstep]
  · rw [hstep]
    have := findUserByEmail_update (runFailedLogins db email pw ts) email hrun9
      (fun v => { v with failedLoginAttempts := 9 + 1,
                         lockedUntil := some (t10 + 24 * 60 * 60 * 1000) })
      (fun v => rfl)
    exact this

/-- Witness for C3: a fresh `alice` survives 9 wrong passwords at
t = 1..9 and is locked until t = 10 + 24 h by the 10th. -/
theorem account_lockout_after_ten_failures_witness :
    failedLoginResults shortDb "alice@example.com" "wrong-password" [1, 2, 3, 4, 5, 6, 7, 8, 9]
        = List.replicate 9 .nullUser
      ∧ (validateUser
          (runFailedLogins shortDb "alice@example.com" "wrong-password" [1, 2, 3, 4, 5, 6, 7, 8, 9])
          "alice@example.com" "wrong-password" 10).2 = .lockedNowError
      ∧ findUserByEmail
          (validateUser
            (runFailedLogins shortDb "alice@example.com" "wrong-password"
              [1, 2, 3, 4, 5, 6, 7, 8, 9])
            "alice@example.com" "wrong-password" 10).1 "alice@example.com"
          = some { alice with failedLoginAttempts := 10,
                              lockedUntil := some (10 + 24 * 60 * 60 * 1000) } :=
  account_lockout_after_ten_failures shortDb alice "alice@example.com" "wrong-password"
    [1, 2, 3, 4, 5, 6, 7, 8, 9] 10 (by decide) (by decide) (by decide) (by decide)
    (by decide) (by decide)

/-- Claim C10: once the lockout window has lapsed without a successful
login, the failed-attempt counter still holds its pre-lockout value (10 or
more), so a single further wrong-password attempt immediately fails with
the lockout rejection and installs a fresh window of exactly 24 hours from
that attempt. -/
theorem relock_after_expired_window
    (db : Db) (u : User) (email pw : String) (now : Nat)
    (hfind : findUserByEmail db email = some u)
    (hwrong : bcryptCompare pw u.password = false)
    (hcount : 10 ≤ u.failedLoginAttempts)
    (hlock : lockActive u.lockedUntil now = false) :
    (validateUser db email pw now).2 = .lockedNowError
      ∧ findUserByEmail (validateUser db email pw now).1 email
          = some { u with failedLoginAttempts := u.failedLoginAttempts + 1,
                          lockedUntil := some (now + 24 * 60 * 60 * 1000) } := by
  have hstep := validateUser_wrong_lock db u email pw now hfind hlock hwrong (by omega)
  refine ⟨by rw [hstep], ?_⟩
  rw [hstep]
  exact findUserByEmail_update db email hfind _ (fun v => rfl)

/-- Witness for C10: `alice` sits at counter 10 with a window that expired
at t = 1000; one wrong password at t = 2000 relocks her until
t = 2000 + 24 h. -/
theorem relock_after_expired_window_witness :
    (validateUser lockedDb "alice@example.com" "wrong-password" 2000).2 = .lockedNowError
      ∧ findUserByEmail
          (validateUser lockedDb "alice@example.com" "wrong-password" 2000).1 "alice@example.com"
          = some { lockedAlice with failedLoginAttempts := lockedAlice.failedLoginAttempts + 1,
                                    lockedUntil := some (2000 + 24 * 60 * 60 * 1000) } :=
  relock_after_expired_window lockedDb lockedAlice "alice@example.com" "wrong-password" 2000
    (by decide) (by decide) (by decide) (by decide)

/-- Claim C6: logout never surfaces a failure — for every store, token
(absent, malformed, access-typed, revoked, expired, or pointing at a
missing row) and flag, the service resolves with its success outcome and
the controller answers with a success acknowledgment. -/
theorem logout_always_reports_success (db : Db) (tok : Jwt) (tokOpt : Option Jwt)
    (allDevices : Bool) (now : Nat) :
    (logout db tok allDevices now).2 = true
      ∧ ((controllerLogout db tokOpt allDevices now).2).isOk = true := by
  constructor
  · cases tok with
    | malformed raw => rfl
    | access payload => cases allDevices <;> simp [logout]
    | refresh payload =>
      cases allDevices with
      | true => simp [logout]
      | false =>
        simp only [logout]
        cases findTokenById db payload.tokenId <;> rfl
  · cases tokOpt with
    | none => rfl
    | some t =>
      simp only [controllerLogout]
      rfl

/-- Claim C7, evaluated at the failing input: `alice` (account 1) asks to
revoke session 5, which belongs to `bob` (account 2).  The service's
`updateMany` matches zero rows and resolves, so the controller's
`NotFoundException` catch never fires: the endpoint answers with the
success message while the foreign row — correctly — stays untouched, and
the whole store is unchanged.  The claimed `SessionNotFound` failure never
occurs. -/
theorem revoke_foreign_session_reports_success :
    controllerRevokeSession twoUserDb 1 5 1000
        = (twoUserDb, .ok "Session revoked successfully")
      ∧ findTokenById twoUserDb 5 = some bobRow
      ∧ bobRow.userId = 2
      ∧ bobRow.isRevoked = false := by
  decide

/-- Counterexample to C8 as stated: two refresh failures — a revoked token
and an unknown token — produce distinguishable rejections, so the rejection
is not one undifferentiated value; the message reveals why the token was
rejected. -/
theorem refresh_failure_messages_differ :
    (refreshTokens revokedDb (.refresh samplePayload) none 1000).2
        = .error { status := 401, message := "Refresh token has been revoked" }
      ∧ (refreshTokens revokedDb (.refresh missingPayload) none 1000).2
        = .error { status := 401, message := "Refresh token not found" }
      ∧ ("Refresh token has been revoked" : String) ≠ "Refresh token not found" := by
  decide

/-- Claim C8 as amended: every failure of the refresh operation is an
`UnauthorizedException` — a uniform 401 status across the malformed,
wrong-type, not-found, revoked and expired causes — though the attached
message differs by cause. -/
theorem refresh_failures_all_unauthorized (db : Db) (tok : Jwt) (dev : Option DeviceInfo)
    (now : Nat) (e : AuthError)
    (h : (refreshTokens db tok dev now).2 = .error e) : e.status = 401 := by
  cases tok with
  | malformed raw =>
    have h' := Except.error.inj h
    rw [← h']
  | access payload =>
    have h' := Except.error.inj h
    rw [← h']
  | refresh payload =>
    cases hfind : findTokenById db payload.tokenId with
    | none =>
      rw [show refreshTokens db (.refresh payload) dev now
          = (db, .error { status := 401, message := "Refresh token not found" }) by
        simp [refreshTokens, refreshValidate, hfind]] at h
      have h' := Except.error.inj h
      rw [← h']
    | some rec =>
      by_cases hrev : rec.isRevoked
      · rw [show refreshTokens db (.refresh payload) dev now
            = (db, .error { status := 401, message := "Refresh token has been revoked" }) by
          simp [refreshTokens, refreshValidate, hfind, hrev]] at h
        have h' := Except.error.inj h
        rw [← h']
      · by_cases hexp : rec.expiresAt < now
        · rw [show refreshTokens db (.refresh payload) dev now
              = (deleteTokenById db rec.id,
                 .error { status := 401, message := "Refresh token has expired" }) by
            simp only [refreshTokens, refreshValidate, hfind, hrev, hexp]
            simp only [Bool.false_eq_true, reduceIte, if_pos hexp]] at h
          have h' := Except.error.inj h
          rw [← h']
        · cases huser : findUserById db rec.userId with
          | none =>
            rw [show refreshTokens db (.refresh payload) dev now
                = (rotationWrites db rec now,
                   .error { status := 401, message := "Invalid refresh token" }) by
              simp only [refreshTokens, refreshValidate, hfind, hrev, hexp, huser]
              simp only [Bool.false_eq_true, reduceIte, if_neg hexp]] at h
            have h' := Except.error.inj h
            rw [← h']
          | some user =>
            rw [show refreshTokens db (.refresh payload) dev now
                = ((refreshRotate db rec user dev now).2,
                   .ok (refreshRotate db rec user dev now).1) by
              simp only [refreshTokens, refreshValidate, hfind, hrev, hexp, huser]
              simp only [Bool.false_eq_true, reduceIte, if_neg hexp]] at h
            cases h

/-- Witness for the amended C8, at the revoked-token failure. -/
theorem refresh_failures_all_unauthorized_witness :
    ({ status := 401, message := "Refresh token has been revoked" } : AuthError).status = 401 :=
  refresh_failures_all_unauthorized revokedDb (.refresh samplePayload) none 1000
    { status := 401, message := "Refresh token has been revoked" } (by decide)

/-- The `deleteMany` predicate spelled out: a row survives exactly when it
is unexpired and not revoked-and-stale. -/
theorem shouldCleanup_eq_false_iff (now : Nat) (r : RefreshTokenRow) :
    shouldCleanup now r = false
      ↔ (¬ r.expiresAt < now
          ∧ ¬ (r.isRevoked = true
                ∧ ∃ t, r.revokedAt = some t ∧ t < now - 7 * 24 * 60 * 60 * 1000)) := by
  unfold shouldCleanup
  cases hrv : r.revokedAt with
  | none => simp [hrv]
  | some t => simp [hrv, and_assoc]

/-- Claim C9: a cleanup run keeps exactly the rows that are unexpired and
not revoked more than 7 days ago — it deletes every expired row and every
row revoked over 7 days before `now`, keeps every other row — and the run
is idempotent: a second sweep at the same instant deletes nothing, and a
sweep of a store containing no matching row returns the store unchanged
with count 0. -/
theorem cleanup_deletes_exactly_expired_and_stale (db : Db) (now : Nat) (r : RefreshTokenRow) :
    (r ∈ ((cleanupExpiredTokens db now).1).refreshTokens
        ↔ (r ∈ db.refreshTokens
            ∧ ¬ r.expiresAt < now
            ∧ ¬ (r.isRevoked = true
                  ∧ ∃ t, r.revokedAt = some t ∧ t < now - 7 * 24 * 60 * 60 * 1000)))
      ∧ cleanupExpiredTokens (cleanupExpiredTokens db now).1 now
          = ((cleanupExpiredTokens db now).1, 0)
      ∧ (db.refreshTokens.countP (shouldCleanup now) = 0 →
          cleanupExpiredTokens db now = (db, 0)) := by
  refine ⟨?_, ?_, ?_⟩
  · rw [show ((cleanupExpiredTokens db now).1).refreshTokens
        = db.refreshTokens.filter (fun x => !shouldCleanup now x) from rfl]
    rw [List.mem_filter]
    constructor
    · rintro ⟨hmem, hq⟩
      refine ⟨hmem, ?_⟩
      rw [← shouldCleanup_eq_false_iff now r]
      simpa using hq
    · rintro ⟨hmem, hrest⟩
      refine ⟨hmem, ?_⟩
      rw [← shouldCleanup_eq_false_iff now r] at hrest
      simp [hrest]
  · have hfix : ((cleanupExpiredTokens db now).1).refreshTokens.filter
        (fun x => !shouldCleanup now x) = ((cleanupExpiredTokens db now).1).refreshTokens := by
      rw [show ((cleanupExpiredTokens db now).1).refreshTokens
          = db.refreshTokens.filter (fun x => !shouldCleanup now x) from rfl]
      rw [List.filter_filter]
      exact List.filter_congr (fun x _ => by cases shouldCleanup now x <;> rfl)
    have hcnt : ((cleanupExpiredTokens db now).1).refreshTokens.countP (shouldCleanup now) = 0 := by
      rw [show ((cleanupExpiredTokens db now).1).refreshTokens
          = db.refreshTokens.filter (fun x => !shouldCleanup now x) from rfl]
      rw [List.countP_filter]
      rw [show (fun a => shouldCleanup now a && !shouldCleanup now a)
          = (fun _ : RefreshTokenRow => false) from
        funext (fun a => by cases shouldCleanup now a <;> rfl)]
      exact congrFun List.countP_false _
    show ({ (cleanupExpiredTokens db now).1 with
            refreshTokens := ((cleanupExpiredTokens db now).1).refreshTokens.filter
              (fun x => !shouldCleanup now x) },
          ((cleanupExpiredTokens db now).1).refreshTokens.countP (shouldCleanup now))
        = ((cleanupExpiredTokens db now).1, 0)
    rw [hfix, hcnt]
  · intro hcount
    have hall : ∀ a ∈ db.refreshTokens, ¬ shouldCleanup now a = true :=
      List.countP_eq_zero.1 hcount
    have hfil : db.refreshTokens.filter (fun x => !shouldCleanup now x) = db.refreshTokens :=
      List.filter_eq_self.2 (fun a ha => by simp [hall a ha])
    show ({ db with
            refreshTokens := db.refreshTokens.filter (fun x => !shouldCleanup now x) },
          db.refreshTokens.countP (shouldCleanup now))
        = (db, 0)
    rw [hfil, hcount]

/-- Witness for C9 at a store mixing an expired row, a stale revoked row, a
freshly revoked row (kept) and a live row, swept at t = 10⁹. -/
theorem cleanup_deletes_exactly_expired_and_stale_witness :
    (freshRevokedRow ∈ ((cleanupExpiredTokens cleanupDb 1000000000).1).refreshTokens
        ↔ (freshRevokedRow ∈ cleanupDb.refreshTokens
            ∧ ¬ freshRevokedRow.expiresAt < 1000000000
            ∧ ¬ (freshRevokedRow.isRevoked = true
                  ∧ ∃ t, freshRevokedRow.revokedAt = some t
                      ∧ t < 1000000000 - 7 * 24 * 60 * 60 * 1000)))
      ∧ cleanupExpiredTokens (cleanupExpiredTokens cleanupDb 1000000000).1 1000000000
          = ((cleanupExpiredTokens cleanupDb 1000000000).1, 0)
      ∧ (cleanupDb.refreshTokens.countP (shouldCleanup 1000000000) = 0 →
          cleanupExpiredTokens cleanupDb 1000000000 = (cleanupDb, 0)) :=
  cleanup_deletes_exactly_expired_and_stale cleanupDb 1000000000 freshRevokedRow
